import Mathlib

/-!
Verification of the chat-backend's core contracts against a shallow
embedding of its JavaScript source (controllers, Mongoose models, AI
service).  JavaScript strings are embedded as lists of UTF-16 code
units (`List Nat`); Mongoose documents become Lean structures; each
Express handler becomes a pure function from its inputs and the current
document store to a response value and the updated store.
-/

namespace ChatApp

/-- Embed a Lean string literal as a list of UTF-16 code units, the
representation used for JavaScript strings throughout this development. -/
def str (s : String) : List Nat := s.data.map Char.toNat

/-- JavaScript whitespace test, restricted to the ASCII whitespace code
points (space, tab, LF, CR) that can occur in the modelled inputs. -/
def isWs (c : Nat) : Bool := decide (c = 32 ∨ c = 9 ∨ c = 10 ∨ c = 13)

/-- `String.prototype.trim`: drop whitespace from both ends. -/
def trimJs (l : List Nat) : List Nat :=
  ((l.dropWhile isWs).reverse.dropWhile isWs).reverse

/-- `String.prototype.toLowerCase` on one code unit (ASCII range, the
only range exercised by the modelled inputs). -/
def lowerChar (c : Nat) : Nat := if 65 ≤ c ∧ c ≤ 90 then c + 32 else c

/-- `String.prototype.toLowerCase`. -/
def lowerStr (l : List Nat) : List Nat := l.map lowerChar

/-- One hexadecimal digit, as tested by the character class `[0-9a-fA-F]`. -/
def isHexDigit (c : Nat) : Bool :=
  decide ((48 ≤ c ∧ c ≤ 57) ∨ (97 ≤ c ∧ c ≤ 102) ∨ (65 ≤ c ∧ c ≤ 70))

/-- The regex `/^[0-9a-fA-F]{24}$/` used by `sendMessage` to decide
whether a supplied `chatId` is a well-formed MongoDB ObjectId. -/
def isValidObjectId (l : List Nat) : Bool :=
  decide (l.length = 24) && l.all isHexDigit

/-- The signup email regex `/^[^\s@]+@[^\s@]+\.[^\s@]+$/`: no whitespace
anywhere, exactly one `@` with a non-empty local part, and a dot strictly
inside the domain part (code 64 is `@`, code 46 is `.`). -/
def emailValid (l : List Nat) : Bool :=
  decide (l.count 64 = 1) &&
  l.all (fun c => !isWs c) &&
  !(l.takeWhile (· ≠ 64)).isEmpty &&
  (((l.dropWhile (· ≠ 64)).tail.drop 1).dropLast.contains 46)

/-- Message sender enumeration (`enum: ['user', 'ai']` in the schema). -/
inductive Sender where
  | user
  | ai
deriving DecidableEq, Repr

/-- A message subdocument of the Chat schema.  `content` is stored
trimmed (the schema sets `trim: true`), `timestamp` is the server-assigned
time of the append, `messageId` abstracts the `Date.now()`-plus-random
string id generated by `addMessage`. -/
structure Message where
  content : List Nat
  sender : Sender
  timestamp : Nat
  messageId : Nat
deriving DecidableEq, Repr

/-- A Chat document.  `id` is the Mongo `_id` (a 24-hex-digit string),
`lastMessageAt` mirrors the schema field kept in sync by `addMessage`
and the pre-save hook. -/
structure Chat where
  id : List Nat
  userId : Nat
  title : List Nat
  messages : List Message
  isActive : Bool
  lastMessageAt : Nat
deriving DecidableEq, Repr

/-- `chatSchema.methods.addMessage`: push a message carrying the current
server time and refresh `lastMessageAt`.  The schema's `trim: true`
setter stores the content trimmed. -/
def addMessage (c : Chat) (content : List Nat) (sender : Sender)
    (now : Nat) (mid : Nat) : Chat :=
  { c with
    messages := c.messages ++ [⟨trimJs content, sender, now, mid⟩],
    lastMessageAt := now }

/-- One step of a stable descending insertion sort on the sort key `key`:
the element being inserted comes from earlier in the input, so it passes
strictly greater keys and stops at the first key less than or equal to
its own.  This reproduces the (stable, per ES2019) behaviour of
`Array.prototype.sort` with comparator `(a, b) => key b - key a`. -/
def insertDesc (key : α → Nat) (x : α) : List α → List α
  | [] => [x]
  | y :: ys => if key y > key x then y :: insertDesc key x ys else x :: y :: ys

/-- Stable descending sort by `key` (insertion sort). -/
def sortByDesc (key : α → Nat) : List α → List α
  | [] => []
  | x :: xs => insertDesc key x (sortByDesc key xs)

/-- `chatSchema.methods.getRecentMessages`: sort the log by timestamp
descending (stably), keep the first `limit` entries and reverse them so
the result reads oldest-first. -/
def getRecentMessages (c : Chat) (limit : Nat) : List Message :=
  ((sortByDesc Message.timestamp c.messages).take limit).reverse

/-- Document-level validation run by Mongoose on `save`: message content
is required with `minlength` 1 and `maxlength` 5000 (after the trim
setter), the title is required with `maxlength` 100. -/
def chatValid (c : Chat) : Bool :=
  !c.title.isEmpty && c.title.length ≤ 100 &&
  c.messages.all (fun m => !m.content.isEmpty && m.content.length ≤ 5000)

/-- Persist a chat document: replace the stored document with the same
`_id`, or insert it when absent. -/
def saveChat (c : Chat) : List Chat → List Chat
  | [] => [c]
  | d :: ds => if d.id = c.id then c :: ds else d :: saveChat c ds

/-- `findOneAndUpdate`-style helper: rewrite the first document matching
`p` with `f`, returning the (updated) match and the updated store. -/
def updateFirst (p : Chat → Bool) (f : Chat → Chat) :
    List Chat → Option Chat × List Chat
  | [] => (none, [])
  | c :: cs =>
    if p c then (some (f c), f c :: cs)
    else
      let r := updateFirst p f cs
      (r.1, c :: r.2)

/-- Result value of `generateAIResponse` in `aiService.js`: the function
never throws past its boundary; on failure `content` carries a fixed
human-readable fallback string and `error` the failure reason. -/
structure AiResponse where
  success : Bool
  content : List Nat
  error : List Nat
deriving DecidableEq, Repr

/-- Response of the `sendMessage` controller, keeping the fields of the
JSON bodies it can produce. -/
inductive SendResult where
  | ok (chatId : List Nat) (messages : List Message) (messageCount : Nat)
      (aiServiceStatus : List Nat) (aiError : Option (List Nat))
  | badRequest (msg : List Nat)
  | notFound
  | internalError
deriving DecidableEq, Repr

/-- `Chat.createNew`: build a chat titled with the first 50 characters of
the first message (plus `...` when truncated) and append that message.
The pre-save hook re-derives the same title and `lastMessageAt`; the
title field's `trim: true` setter stores it trimmed. -/
def createNew (userId : Nat) (firstMessage : List Nat) (sender : Sender)
    (newId : List Nat) (now : Nat) (mid : Nat) : Chat :=
  addMessage
    { id := newId, userId := userId,
      title := trimJs (firstMessage.take 50 ++
        (if 50 < firstMessage.length then str "..." else [])),
      messages := [], isActive := true, lastMessageAt := now }
    firstMessage sender now mid

/-- Shared tail of the `sendMessage` controller, entered once the target
chat holds the freshly appended user message and has been saved: obtain
the gateway result, append it as an `ai` message whether or not the
gateway succeeded, save, and answer with the 20 most recent messages.
A save rejected by schema validation surfaces as the catch-all 500. -/
def sendMessageRespond (store : List Chat) (chat : Chat) (ai : AiResponse)
    (tAi : Nat) (mid2 : Nat) : SendResult × List Chat :=
  let chat2 := addMessage chat ai.content .ai tAi mid2
  if chatValid chat2 then
    (.ok chat2.id (getRecentMessages chat2 20) chat2.messages.length
      (if ai.success then str "success" else str "error")
      (if ai.success then none else some ai.error),
     saveChat chat2 store)
  else (.internalError, store)

/-- The `sendMessage` controller.  Inputs beyond the request itself:
`ai` is the value returned by the `generateAIResponse` call, `now`/`tAi`
the server times of the two appends, `newId`/`mid1`/`mid2` the generated
identifiers.  In the source, the branch for a malformed `chatId`
constructs `new Chat({ userId: user._id, ... })` where `user` is an
undefined identifier; the resulting `ReferenceError` is caught by the
surrounding `try`/`catch`, which answers 500 — modelled here as
`.internalError` with the store untouched. -/
def sendMessage (store : List Chat) (uid : Nat) (message : List Nat)
    (chatId : Option (List Nat)) (ai : AiResponse) (now tAi : Nat)
    (newId : List Nat) (mid1 mid2 : Nat) : SendResult × List Chat :=
  if (trimJs message).isEmpty then
    (.badRequest (str "Message content is required"), store)
  else if 5000 < message.length then
    (.badRequest (str "Message cannot exceed 5000 characters"), store)
  else
    match chatId with
    | some cid =>
      if cid.isEmpty then
        -- an empty chatId string is falsy in `if (chatId)`
        let chat := createNew uid (trimJs message) .user newId now mid1
        sendMessageRespond (saveChat chat store) chat ai tAi mid2
      else if !isValidObjectId cid then
        -- ReferenceError on the undefined `user` → catch → 500
        (.internalError, store)
      else
        match store.find? (fun c => c.id == cid && c.userId == uid) with
        | none => (.notFound, store)
        | some chat =>
          let chat1 := addMessage chat (trimJs message) .user now mid1
          if chatValid chat1 then
            sendMessageRespond (saveChat chat1 store) chat1 ai tAi mid2
          else (.internalError, store)
    | none =>
      let chat := createNew uid (trimJs message) .user newId now mid1
      sendMessageRespond (saveChat chat store) chat ai tAi mid2

/-- Response of the `getChatHistory` controller. -/
inductive HistoryResult where
  | ok (chats : List Chat) (currentPage totalPages totalChats : Nat)
      (hasNextPage hasPrevPage : Bool) (limit : Nat)
  | badRequest (msg : List Nat)
deriving DecidableEq, Repr

/-- The `getChatHistory` controller: reject `limit > 100`, then page
through the requester's `isActive` chats sorted by `lastMessageAt`
descending (`skip = (page - 1) * limit`). -/
def getChatHistory (store : List Chat) (uid : Nat) (page limit : Nat) :
    HistoryResult :=
  if 100 < limit then .badRequest (str "Limit cannot exceed 100")
  else
    let mine := store.filter (fun c => c.userId == uid && c.isActive)
    let page' := ((sortByDesc Chat.lastMessageAt mine).drop
      ((page - 1) * limit)).take limit
    let totalChats := mine.length
    let totalPages := (totalChats + limit - 1) / limit
    .ok page' page totalPages totalChats
      (decide (page < totalPages)) (decide (1 < page)) limit

/-- Response of the `getChat` controller. -/
inductive GetChatResult where
  | ok (id : List Nat) (title : List Nat) (lastMessageAt : Nat)
      (messageCount : Nat) (isActive : Bool) (messages : List Message)
  | badRequest (msg : List Nat)
  | notFound
deriving DecidableEq, Repr

/-- The `getChat` controller: `findOne({ _id: chatId, userId })` — note
the query does not filter on `isActive`.  A `chatId` that fails to cast
to an ObjectId raises `CastError`, answered as 400. -/
def getChat (store : List Chat) (uid : Nat) (cid : List Nat)
    (limit : Nat) : GetChatResult :=
  if !isValidObjectId cid then .badRequest (str "Invalid chat ID format")
  else
    match store.find? (fun c => c.id == cid && c.userId == uid) with
    | none => .notFound
    | some c =>
      .ok c.id c.title c.lastMessageAt c.messages.length c.isActive
        (getRecentMessages c limit)

/-- Response of the `createNewChat` controller. -/
inductive CreateResult where
  | created (id : List Nat) (title : List Nat) (messageCount : Nat)
      (isActive : Bool)
  | internalError
deriving DecidableEq, Repr

/-- The `createNewChat` controller: no validation happens in the handler;
`title || 'New Chat'` substitutes the default for an absent or empty
(falsy) title, and the save is subject only to schema validation, whose
rejection lands in the catch-all 500 (this handler has no `CastError` or
`ValidationError` branch). -/
def createNewChat (store : List Chat) (uid : Nat) (title : Option (List Nat))
    (newId : List Nat) (now : Nat) : CreateResult × List Chat :=
  let t0 := match title with
    | none => str "New Chat"
    | some t => if t.isEmpty then str "New Chat" else t
  let t1 := trimJs t0
  let c : Chat :=
    { id := newId, userId := uid, title := t1,
      messages := [], isActive := true, lastMessageAt := now }
  if chatValid c then (.created newId t1 0 true, saveChat c store)
  else (.internalError, store)

/-- Response of the `deleteChat` controller. -/
inductive DeleteResult where
  | ok (chatId : List Nat)
  | badRequest (msg : List Nat)
  | notFound
deriving DecidableEq, Repr

/-- The `deleteChat` controller: soft delete via
`findOneAndUpdate({ _id, userId }, { isActive: false })`. -/
def deleteChat (store : List Chat) (uid : Nat) (cid : List Nat) :
    DeleteResult × List Chat :=
  if !isValidObjectId cid then (.badRequest (str "Invalid chat ID format"), store)
  else
    match updateFirst (fun c => c.id == cid && c.userId == uid)
      (fun c => { c with isActive := false }) store with
    | (none, _) => (.notFound, store)
    | (some c, store') => (.ok c.id, store')

/-- A User document after save: `password` holds the bcrypt hash written
by the pre-save hook, never the plaintext. -/
structure User where
  id : Nat
  name : List Nat
  email : List Nat
  password : List Nat
deriving DecidableEq, Repr

/-- Modelled from the spec: `bcrypt.hash(password, 12)` lives in the
external bcryptjs library; the spec requires only that the stored
credential is a salted one-way hash that is "never stored ... in
cleartext" and that comparison recomputes the hash of the candidate.
The model uses an injective tagged encoding (the `$2b$12$` prefix of a
bcrypt digest followed by the hashed input); one-wayness and secrecy are
not modelled, only the functional contract used by the claims. -/
def bcryptHash (pw : List Nat) : List Nat := str "$2b$12$" ++ pw

/-- Modelled from the spec: `bcrypt.compare(candidate, stored)` recomputes
the hash of the candidate against the salt embedded in `stored` and
checks for equality. -/
def bcryptCompare (candidate stored : List Nat) : Bool :=
  stored == bcryptHash candidate

/-- `userSchema.methods.comparePassword`. -/
def comparePassword (u : User) (candidate : List Nat) : Bool :=
  bcryptCompare candidate u.password

/-- `userSchema.statics.findByEmail`:
`findOne({ email: email.toLowerCase() })` — lower-cases but does not trim
the lookup key. -/
def findByEmail (store : List User) (email : List Nat) : Option User :=
  store.find? (fun u => u.email == lowerStr email)

/-- Response of the `signup` controller. -/
inductive SignupResult where
  | created (user : User)
  | badRequest (msg : List Nat)
  | conflict (msg : List Nat)
deriving DecidableEq, Repr

/-- The `signup` controller: require all three fields (an empty string is
falsy), validate the email against the regex and the password length,
reject a duplicate email with 409, then store the user with the name
trimmed, the email lower-cased and trimmed, and the password replaced by
its bcrypt hash in the pre-save hook. -/
def signup (store : List User) (name email password : List Nat)
    (newId : Nat) : SignupResult × List User :=
  if name.isEmpty || email.isEmpty || password.isEmpty then
    (.badRequest (str "Please provide name, email, and password"), store)
  else if !emailValid email then
    (.badRequest (str "Please provide a valid email address"), store)
  else if password.length < 6 then
    (.badRequest (str "Password must be at least 6 characters long"), store)
  else
    match findByEmail store email with
    | some _ => (.conflict (str "User with this email already exists"), store)
    | none =>
      let u : User :=
        { id := newId, name := trimJs name,
          email := trimJs (lowerStr email), password := bcryptHash password }
      (.created u, store ++ [u])

/-- Response of the `login` controller. -/
inductive LoginResult where
  | ok (userId : Nat)
  | badRequest (msg : List Nat)
  | unauthorized (msg : List Nat)
deriving DecidableEq, Repr

/-- The `login` controller: look the user up by normalized email and
verify the password against the stored hash; no-such-email and wrong
password produce the same 401 message. -/
def login (store : List User) (email password : List Nat) : LoginResult :=
  if email.isEmpty || password.isEmpty then
    .badRequest (str "Please provide email and password")
  else
    match findByEmail store email with
    | none => .unauthorized (str "Invalid email or password")
    | some u =>
      if comparePassword u password then .ok u.id
      else .unauthorized (str "Invalid email or password")

/-- The default `JWT_SECRET` constant of `authController.js` (it contains
no `.` code unit, which keeps the signature segment dot-free). -/
def JWT_SECRET : List Nat := str "your-super-secret-jwt-key-change-in-production"

/-- Modelled from the spec: the header segment a JWT signing scheme
prepends ("three dot-delimited segments"); the jsonwebtoken library
itself is an external collaborator.  Base64url segments contain no dot,
which the model preserves. -/
def headerSeg : List Nat := str "JWT"

/-- Modelled from the spec: the payload segment encoding.  `generateToken`
embeds the identity id plus display fields and the expiry; only the id
and the expiry affect verification, so the model encodes the pair
`(id, exp)` injectively as a dot-free run of `a`s of length
`Nat.pair id exp`. -/
def encodePayload (id exp : Nat) : List Nat :=
  List.replicate (Nat.pair id exp) 97

/-- Modelled from the spec: payload decoding, the partial inverse of
`encodePayload`. -/
def decodePayload (l : List Nat) : Option (Nat × Nat) :=
  if l.all (fun c => decide (c = 97)) then some (Nat.unpair l.length) else none

/-- Modelled from the spec: the tamper-evident signature over
`header.payload` with the server secret.  A real HMAC is replaced by an
encoding that is injective in the signed text and dot-free (dots, code
46, are re-coded to 44 and the secret is appended behind a `|`,
code 124); unforgeability against an adversary who knows the secret is
not modelled, only tamper evidence. -/
def macTag (secret msg : List Nat) : List Nat :=
  msg.map (fun c => if c = 46 then 44 else c) ++ 124 :: secret

/-- `generateToken` composed with the modelled signing scheme: issue a
token for identity `id` expiring at `exp`. -/
def generateToken (secret : List Nat) (id exp : Nat) : List Nat :=
  let body := headerSeg ++ 46 :: encodePayload id exp
  body ++ 46 :: macTag secret body

/-- Outcome of the `authenticateToken` middleware, one constructor per
distinct response it can produce. -/
inductive AuthResult where
  | ok (id : Nat)
  | malformedToken
  | invalidToken
  | expiredToken
  | userNotFound
deriving DecidableEq, Repr

/-- The response message each failure outcome carries in the source. -/
def authMessage : AuthResult → List Nat
  | .ok _ => []
  | .malformedToken => str "Invalid token format"
  | .invalidToken => str "Invalid token"
  | .expiredToken => str "Token expired"
  | .userNotFound => str "Invalid token - user not found"

/-- `token.split('.')` on the code-unit representation. -/
def splitDots : List Nat → List (List Nat)
  | [] => [[]]
  | c :: cs =>
    if c = 46 then [] :: splitDots cs
    else
      match splitDots cs with
      | [] => [[c]]
      | s :: rest => (c :: s) :: rest

/-- The `authenticateToken` middleware after bearer extraction: reject a
token without exactly three dot-delimited segments as malformed, then
verify (signature first, then payload, then expiry, as jsonwebtoken
does — a `JsonWebTokenError` maps to "Invalid token", a
`TokenExpiredError` to "Token expired"), and finally require that the
referenced user still exists. -/
def authenticateToken (users : List Nat) (secret : List Nat)
    (token : List Nat) (now : Nat) : AuthResult :=
  match splitDots token with
  | [h, p, s] =>
    if s = macTag secret (h ++ 46 :: p) then
      match decodePayload p with
      | none => .invalidToken
      | some (id, exp) =>
        if now < exp then
          if id ∈ users then .ok id else .userNotFound
        else .expiredToken
    else .invalidToken
  | _ => .malformedToken

/-- The chats carried by a history response (`[]` on a 400). -/
def historyChats : HistoryResult → List Chat
  | .ok chats _ _ _ _ _ _ => chats
  | .badRequest _ => []

/-- Fixture: a user message appended at server time 5. -/
def msgA : Message := ⟨str "a", .user, 5, 1⟩

/-- Fixture: an assistant message appended at the same server time 5. -/
def msgB : Message := ⟨str "b", .ai, 5, 2⟩

/-- Fixture: a conversation whose two appends carry equal timestamps. -/
def tieChat : Chat := ⟨List.replicate 24 97, 1, str "t", [msgA, msgB], true, 5⟩

/-- Fixture: the `k`-th of 25 active conversations of owner 1, most
recently active first. -/
def histChat (k : Nat) : Chat := ⟨[k], 1, str "t", [], true, 100 - k⟩

/-- Fixture: a store of 25 active conversations of owner 1. -/
def histStore : List Chat := (List.range 25).map histChat

/-- Fixture: an active conversation of owner 1 holding one message. -/
def activeChat : Chat := ⟨List.replicate 24 97, 1, str "hello", [msgA], true, 5⟩

/-- Fixture: `activeChat` after its soft delete. -/
def deletedChat : Chat := { activeChat with isActive := false }

/-- Fixture: the stored user produced by a signup of
("Ada", "ada@x.com", "secret1") as identity 1. -/
def uAda : User := ⟨1, str "Ada", str "ada@x.com", bcryptHash (str "secret1")⟩

/-- Fixture: a conversation whose three appends carry strictly
increasing timestamps. -/
def strictChat : Chat :=
  ⟨List.replicate 24 98, 1, str "t",
    [⟨str "x", .user, 1, 1⟩, ⟨str "y", .ai, 2, 2⟩, ⟨str "z", .user, 3, 3⟩],
    true, 3⟩

section Lemmas

theorem dropWhile_head_false {p : α → Bool} :
    ∀ {l : List α} {c : α} {cs : List α}, l.dropWhile p = c :: cs → p c = false
  | [], _, _, h => by simp at h
  | a :: l, c, cs, h => by
    by_cases ha : p a
    · rw [List.dropWhile_cons_of_pos ha] at h
      exact dropWhile_head_false h
    · rw [List.dropWhile_cons_of_neg ha] at h
      cases h
      exact Bool.eq_false_iff.mpr ha

theorem dropWhile_dropWhile (p : α → Bool) (l : List α) :
    (l.dropWhile p).dropWhile p = l.dropWhile p := by
  cases h : l.dropWhile p with
  | nil => rfl
  | cons c cs =>
    have := dropWhile_head_false h
    rw [List.dropWhile_cons_of_neg (by simp [this])]

theorem dropWhile_eq_self {p : α → Bool} {l : List α}
    (h : ∀ c ∈ l, p c = false) : l.dropWhile p = l := by
  cases l with
  | nil => rfl
  | cons c cs =>
    exact List.dropWhile_cons_of_neg (by simp [h c (by simp)])

theorem trimJs_reverse (l : List Nat) :
    (trimJs l).reverse = ((l.dropWhile isWs).reverse).dropWhile isWs := by
  simp [trimJs]

theorem trimJs_eq_nil_iff {l : List Nat} :
    trimJs l = [] ↔ ∀ c ∈ l, isWs c = true := by
  constructor
  · intro h c hc
    have h' : ((l.dropWhile isWs).reverse).dropWhile isWs = [] := by
      have := congrArg List.reverse h
      rwa [trimJs_reverse] at this
    have hall : ∀ x ∈ (l.dropWhile isWs).reverse, isWs x :=
      List.dropWhile_eq_nil_iff.mp h'
    have hc2 : c ∈ l.takeWhile isWs ++ l.dropWhile isWs := by
      rw [List.takeWhile_append_dropWhile]; exact hc
    rcases List.mem_append.mp hc2 with hmem | hmem
    · exact List.mem_takeWhile_imp hmem
    · exact hall c (List.mem_reverse.mpr hmem)
  · intro h
    simp only [trimJs]
    rw [List.dropWhile_eq_nil_iff.mpr (fun c hc => h c hc)]
    simp

theorem trimJs_prefix_dropWhile (l : List Nat) : trimJs l <+: l.dropWhile isWs := by
  rw [← List.reverse_suffix, trimJs_reverse]
  exact List.dropWhile_suffix isWs

theorem trimJs_head_false {l : List Nat} {c : Nat} {cs : List Nat}
    (h : trimJs l = c :: cs) : isWs c = false := by
  obtain ⟨t, ht⟩ := trimJs_prefix_dropWhile l
  rw [h] at ht
  exact dropWhile_head_false ht.symm

theorem trimJs_idem (l : List Nat) : trimJs (trimJs l) = trimJs l := by
  have h1 : (trimJs l).dropWhile isWs = trimJs l := by
    cases h : trimJs l with
    | nil => rfl
    | cons c cs =>
      exact List.dropWhile_cons_of_neg (by simp [trimJs_head_false h])
  show (((trimJs l).dropWhile isWs).reverse.dropWhile isWs).reverse = trimJs l
  rw [h1, trimJs_reverse, dropWhile_dropWhile, ← trimJs_reverse,
    List.reverse_reverse]

theorem trimJs_length_le (l : List Nat) : (trimJs l).length ≤ l.length :=
  le_trans (trimJs_prefix_dropWhile l).length_le (List.dropWhile_suffix isWs).length_le

theorem trimJs_eq_self {l : List Nat} (h : ∀ c ∈ l, isWs c = false) :
    trimJs l = l := by
  simp only [trimJs]
  rw [dropWhile_eq_self h, dropWhile_eq_self
    (fun c hc => h c (List.mem_reverse.mp hc)), List.reverse_reverse]

theorem isWs_lowerChar (c : Nat) : isWs (lowerChar c) = isWs c := by
  simp only [lowerChar]
  split
  · rename_i h
    simp only [isWs, decide_eq_decide]
    omega
  · rfl

theorem lowerChar_idem (c : Nat) : lowerChar (lowerChar c) = lowerChar c := by
  simp only [lowerChar]
  split
  · rename_i h
    rw [if_neg (by omega)]
  · rfl

theorem lowerStr_idem (l : List Nat) : lowerStr (lowerStr l) = lowerStr l := by
  simp only [lowerStr, List.map_map]
  exact List.map_congr_left fun c _ => lowerChar_idem c

theorem mem_insertDesc {key : α → Nat} {x y : α} :
    ∀ {l : List α}, y ∈ insertDesc key x l ↔ y = x ∨ y ∈ l
  | [] => by simp [insertDesc]
  | z :: zs => by
    simp only [insertDesc]
    split
    · simp only [List.mem_cons, mem_insertDesc (l := zs)]
      tauto
    · simp only [List.mem_cons]

theorem mem_sortByDesc {key : α → Nat} {y : α} :
    ∀ {l : List α}, y ∈ sortByDesc key l ↔ y ∈ l
  | [] => by simp [sortByDesc]
  | x :: xs => by
    simp only [sortByDesc, mem_insertDesc, mem_sortByDesc (l := xs),
      List.mem_cons]

theorem insertDesc_eq_append {key : α → Nat} {x : α} :
    ∀ {l : List α}, (∀ y ∈ l, key x < key y) → insertDesc key x l = l ++ [x]
  | [] , _ => rfl
  | z :: zs, h => by
    simp only [insertDesc, if_pos (h z (by simp))]
    rw [insertDesc_eq_append (fun y hy => h y (by simp [hy]))]
    simp

theorem sortByDesc_eq_reverse {key : α → Nat} :
    ∀ {l : List α}, l.Pairwise (fun a b => key a < key b) →
      sortByDesc key l = l.reverse
  | [], _ => rfl
  | x :: xs, h => by
    rw [List.pairwise_cons] at h
    simp only [sortByDesc]
    rw [sortByDesc_eq_reverse h.2,
      insertDesc_eq_append (fun y hy => h.1 y (List.mem_reverse.mp hy))]
    simp

/-- Anything `getChatHistory` returns is a stored, active conversation
of the requesting owner. -/
theorem mem_of_mem_historyChats {store : List Chat} {uid page limit : Nat}
    {c : Chat} (hc : c ∈ historyChats (getChatHistory store uid page limit)) :
    c ∈ store ∧ c.userId = uid ∧ c.isActive = true := by
  by_cases h : 100 < limit
  · simp [getChatHistory, h, historyChats] at hc
  · simp only [getChatHistory, if_neg h, historyChats] at hc
    have h1 : c ∈ sortByDesc Chat.lastMessageAt
        (store.filter fun d => d.userId == uid && d.isActive) :=
      List.mem_of_mem_drop (List.mem_of_mem_take hc)
    have h2 := List.mem_filter.mp (mem_sortByDesc.mp h1)
    have h3 := h2.2
    simp only [Bool.and_eq_true, beq_iff_eq] at h3
    exact ⟨h2.1, h3⟩

/-- Inversion for `updateFirst` when it reports a match: the store splits
around the first matching document. -/
theorem updateFirst_eq_some {p : Chat → Bool} {f : Chat → Chat} :
    ∀ {store store' : List Chat} {c : Chat},
      updateFirst p f store = (some c, store') →
      ∃ pre c0 suf, store = pre ++ c0 :: suf ∧ store' = pre ++ f c0 :: suf ∧
        c = f c0 ∧ p c0 = true ∧ ∀ d ∈ pre, p d = false
  | [], _, _, h => by simp [updateFirst] at h
  | d :: ds, store', c, h => by
    by_cases hd : p d
    · refine ⟨[], d, ds, by simp, ?_, ?_, hd, by simp⟩
      · simp only [updateFirst, if_pos hd] at h
        cases h
        simp
      · simp only [updateFirst, if_pos hd] at h
        cases h
        rfl
    · simp only [updateFirst, if_neg hd] at h
      cases hu : updateFirst p f ds with
      | mk r ds' =>
        rw [hu] at h
        simp only [Prod.mk.injEq] at h
        obtain ⟨hr, hs⟩ := h
        subst hr
        subst hs
        obtain ⟨pre, c0, suf, hsplit, hsplit', hc, hp, hpre⟩ :=
          updateFirst_eq_some hu
        exact ⟨d :: pre, c0, suf, by simp [hsplit], by simp [hsplit'],
          hc, hp, fun e he => by
            rcases List.mem_cons.mp he with rfl | he'
            · exact Bool.eq_false_iff.mpr hd
            · exact hpre e he'⟩

theorem reverse_take_reverse (l : List α) (n : Nat) :
    (l.reverse.take n).reverse = l.drop (l.length - n) := by
  induction l using List.reverseRecOn generalizing n with
  | nil => simp
  | append_singleton xs x ih =>
    cases n with
    | zero => simp
    | succ m =>
      rw [List.reverse_append]
      simp only [List.reverse_cons, List.reverse_nil, List.nil_append,
        List.singleton_append, List.take_succ_cons, List.reverse_cons, ih]
      rw [List.length_append, List.length_singleton]
      have hle : xs.length - m ≤ xs.length := Nat.sub_le _ _
      rw [show xs.length + 1 - (m + 1) = xs.length - m by omega]
      rw [List.drop_append_of_le_length hle]

theorem emailValid_no_ws {e : List Nat} (h : emailValid e = true) :
    ∀ c ∈ e, isWs c = false := by
  simp only [emailValid, Bool.and_eq_true, List.all_eq_true,
    Bool.not_eq_true'] at h
  exact h.1.1.2

theorem emailValid_ne_nil {e : List Nat} (h : emailValid e = true) :
    e.isEmpty = false := by
  cases e with
  | nil => simp [emailValid] at h
  | cons c cs => rfl

theorem lowerStr_no_ws {e : List Nat} (h : ∀ c ∈ e, isWs c = false) :
    ∀ c ∈ lowerStr e, isWs c = false := by
  intro c hc
  obtain ⟨c', hc', rfl⟩ := List.mem_map.mp hc
  rw [isWs_lowerChar]
  exact h c' hc'

theorem trimJs_lowerStr_of_valid {e : List Nat} (h : emailValid e = true) :
    trimJs (lowerStr e) = lowerStr e :=
  trimJs_eq_self (lowerStr_no_ws (emailValid_no_ws h))

theorem bcryptHash_ne_self (pw : List Nat) : bcryptHash pw ≠ pw := by
  intro h
  have := congrArg List.length h
  simp [bcryptHash, str] at this
  omega

theorem bcryptHash_injective {a b : List Nat}
    (h : bcryptHash a = bcryptHash b) : a = b :=
  List.append_cancel_left h

/-- Inversion of a successful signup: the request passed every check and
the new user was stored normalized and hashed. -/
theorem signup_created_inv {store : List User} {name email pw : List Nat}
    {newId : Nat} {u : User} {store' : List User}
    (h : signup store name email pw newId = (.created u, store')) :
    emailValid email = true ∧ 6 ≤ pw.length ∧
    findByEmail store email = none ∧
    u = ⟨newId, trimJs name, trimJs (lowerStr email), bcryptHash pw⟩ ∧
    store' = store ++ [u] := by
  by_cases h1 : (name.isEmpty || email.isEmpty || pw.isEmpty) = true
  · simp [signup, h1] at h
  · by_cases h2 : emailValid email = true
    · by_cases h3 : pw.length < 6
      · simp [signup, h1, h2, h3] at h
      · cases hfind : findByEmail store email with
        | some v => simp [signup, h1, h2, h3, hfind] at h
        | none =>
          simp only [Bool.not_eq_true] at h1
          simp only [signup, h1, h2, h3, hfind, Bool.not_true,
            Bool.false_eq_true, if_false, ite_false, Prod.mk.injEq,
            SignupResult.created.injEq] at h
          obtain ⟨hu, hst⟩ := h
          refine ⟨h2, by omega, rfl, hu.symm, ?_⟩
          rw [← hst, hu]
    · simp only [Bool.not_eq_true] at h2
      simp [signup, h1, h2] at h

theorem trimJs_pad (n : Nat) :
    trimJs (List.replicate (n + 1) 97 ++ [32]) = List.replicate (n + 1) 97 := by
  have hd : (List.replicate (n + 1) 97 ++ [32]).dropWhile isWs =
      List.replicate (n + 1) 97 ++ [32] := by
    rw [List.replicate_succ, List.cons_append,
      List.dropWhile_cons_of_neg (by decide)]
  simp only [trimJs, hd, List.reverse_append, List.reverse_cons,
    List.reverse_nil, List.nil_append, List.singleton_append]
  rw [List.dropWhile_cons_of_pos (by decide),
    dropWhile_eq_self (fun c hc => by
      rw [List.mem_reverse] at hc
      have h97 := List.eq_of_mem_replicate hc
      subst h97
      decide)]
  simp

theorem trimJs_cons_ne_nil {c : Nat} (l : List Nat) (h : isWs c = false) :
    (trimJs (c :: l)).isEmpty = false := by
  rw [Bool.eq_false_iff, ne_eq, List.isEmpty_eq_true]
  intro hnil
  have := trimJs_eq_nil_iff.mp hnil c (by simp)
  rw [this] at h
  exact Bool.true_eq_false.mp h

/-- The title `Chat.createNew` derives from a non-blank first message is
itself non-blank and at most 53 characters long. -/
theorem createNew_title_valid (message : List Nat)
    (h1 : (trimJs message).isEmpty = false) :
    (trimJs ((trimJs message).take 50 ++
      (if 50 < (trimJs message).length then str "..." else []))).isEmpty
        = false ∧
    (trimJs ((trimJs message).take 50 ++
      (if 50 < (trimJs message).length then str "..." else []))).length
        ≤ 100 := by
  constructor
  · cases ht : trimJs message with
    | nil => rw [ht] at h1; simp at h1
    | cons c cs =>
      have hc : isWs c = false := trimJs_head_false ht
      rw [List.take_succ_cons, List.cons_append]
      exact trimJs_cons_ne_nil _ hc
  · refine le_trans (trimJs_length_le _) ?_
    rw [List.length_append, List.length_take]
    have : (if 50 < (trimJs message).length then str "..." else []).length
        ≤ 3 := by
      split <;> simp [str]
    omega

theorem chatValid_addMessage (c : Chat) (content : List Nat) (s : Sender)
    (t mid : Nat) (hc : chatValid c = true)
    (h1 : (trimJs content).isEmpty = false)
    (h2 : (trimJs content).length ≤ 5000) :
    chatValid (addMessage c content s t mid) = true := by
  simp only [chatValid, addMessage, Bool.and_eq_true, List.all_append,
    List.all_cons, List.all_nil, Bool.and_true] at hc ⊢
  refine ⟨hc.1, hc.2, ?_, by simpa using h2⟩
  simp only [Bool.not_eq_true']
  exact h1

theorem chatValid_createNew (uid : Nat) (message : List Nat)
    (newId : List Nat) (now mid : Nat)
    (h1 : (trimJs message).isEmpty = false) (h2 : message.length ≤ 5000) :
    chatValid (createNew uid (trimJs message) .user newId now mid) = true := by
  obtain ⟨ht1, ht2⟩ := createNew_title_valid message h1
  refine chatValid_addMessage _ _ _ _ _ ?_ ?_ ?_
  · simp only [chatValid, List.all_nil, Bool.and_true, Bool.and_eq_true]
    exact ⟨by simpa using ht1, by simpa using ht2⟩
  · rw [trimJs_idem]
    exact h1
  · rw [trimJs_idem]
    exact le_trans (trimJs_length_le message) h2

theorem sendMessageRespond_not_badRequest (store : List Chat) (chat : Chat)
    (ai : AiResponse) (tAi mid2 : Nat) (msg : List Nat) :
    (sendMessageRespond store chat ai tAi mid2).1 ≠ .badRequest msg := by
  simp only [sendMessageRespond]
  split <;> simp

/-- Supporting characterization of the resolved send path: with a valid
message, no `chatId`, and a gateway result whose content passes schema
validation (every fallback string does), the request succeeds, the new
conversation stores exactly one user message holding the trimmed request
content followed by one assistant message holding the (trimmed) gateway
content, and the response carries `aiServiceStatus` "error" plus the
reason exactly when the gateway reported failure. -/
theorem sendMessage_resolved_appends_user_and_ai (store : List Chat)
    (uid : Nat) (message : List Nat) (ai : AiResponse)
    (now tAi : Nat) (newId : List Nat) (mid1 mid2 : Nat)
    (h1 : (trimJs message).isEmpty = false) (h2 : message.length ≤ 5000)
    (hai1 : (trimJs ai.content).isEmpty = false)
    (hai2 : (trimJs ai.content).length ≤ 5000) :
    ∃ c2 : Chat,
      sendMessage store uid message none ai now tAi newId mid1 mid2 =
        (.ok c2.id (getRecentMessages c2 20) 2
          (if ai.success then str "success" else str "error")
          (if ai.success then none else some ai.error),
         saveChat c2
           (saveChat (createNew uid (trimJs message) .user newId now mid1)
             store)) ∧
      c2.messages.map Message.content = [trimJs message, trimJs ai.content] ∧
      c2.messages.map Message.sender = [.user, .ai] := by
  have hvalid1 := chatValid_createNew uid message newId now mid1 h1 h2
  have hvalid2 := chatValid_addMessage
    (createNew uid (trimJs message) .user newId now mid1) ai.content .ai
    tAi mid2 hvalid1 hai1 hai2
  refine ⟨addMessage (createNew uid (trimJs message) .user newId now mid1)
    ai.content .ai tAi mid2, ?_, ?_, ?_⟩
  · simp only [sendMessage, h1, Bool.false_eq_true, if_false,
      if_neg (by omega : ¬ 5000 < message.length)]
    simp only [sendMessageRespond, hvalid2, if_true]
    simp [addMessage, createNew]
  · simp [addMessage, createNew, trimJs_idem]
  · simp [addMessage, createNew]

theorem splitDots_no_dot : ∀ {l : List Nat}, (∀ c ∈ l, c ≠ 46) →
    splitDots l = [l]
  | [], _ => rfl
  | c :: cs, h => by
    simp only [splitDots, if_neg (h c (by simp))]
    rw [splitDots_no_dot (fun x hx => h x (by simp [hx]))]

theorem splitDots_append_sep : ∀ {a : List Nat} (r : List Nat),
    (∀ c ∈ a, c ≠ 46) → splitDots (a ++ 46 :: r) = a :: splitDots r
  | [], r, _ => by simp [splitDots]
  | c :: cs, r, h => by
    simp only [List.cons_append, splitDots, List.append_eq,
      if_neg (h c (by simp))]
    rw [splitDots_append_sep r (fun x hx => h x (by simp [hx]))]

theorem headerSeg_no_dot : ∀ c ∈ headerSeg, c ≠ 46 := by decide

theorem JWT_SECRET_no_dot : ∀ c ∈ JWT_SECRET, c ≠ 46 := by decide

theorem encodePayload_no_dot (id exp : Nat) :
    ∀ c ∈ encodePayload id exp, c ≠ 46 := by
  intro c hc
  have := List.eq_of_mem_replicate hc
  omega

theorem macTag_no_dot (secret msg : List Nat)
    (hsec : ∀ c ∈ secret, c ≠ 46) : ∀ c ∈ macTag secret msg, c ≠ 46 := by
  intro c hc
  simp only [macTag, List.mem_append, List.mem_cons, List.mem_map] at hc
  rcases hc with ⟨x, _, rfl⟩ | rfl | hc
  · split
    · omega
    · rename_i hx
      exact hx
  · omega
  · exact hsec c hc

theorem set_take_drop : ∀ (l : List Nat) (i : Nat), i < l.length →
    ∀ b, l.set i b = l.take i ++ b :: l.drop (i + 1)
  | [], i, h, b => by simp at h
  | c :: cs, 0, _, b => by simp
  | c :: cs, i + 1, h, b => by
    simp only [List.set_cons_succ, List.take_succ_cons, List.drop_succ_cons,
      List.cons_append]
    rw [set_take_drop cs i (by simpa using h) b]

theorem macTag_set_ne (secret m : List Nat) (i : Nat) (old b : Nat)
    (hold : m[i]? = some old) (hb : b ≠ old) (hb46 : b ≠ 46)
    (hm46 : old ≠ 46) :
    macTag secret (m.set i b) ≠ macTag secret m := by
  intro heq
  have h2 : (m.set i b).map (fun c => if c = 46 then 44 else c) =
      m.map (fun c => if c = 46 then 44 else c) :=
    List.append_cancel_right heq
  have hi : i < m.length := by
    by_contra hlt
    rw [List.getElem?_eq_none (by omega)] at hold
    exact Option.noConfusion hold
  rw [List.map_set] at h2
  have h3 := congrArg (fun l => l[i]?) h2
  simp only at h3
  rw [List.getElem?_set_self (by simpa using hi), List.getElem?_map,
    hold] at h3
  simp only [Option.map_some', Option.some.injEq] at h3
  rw [if_neg hb46, if_neg hm46] at h3
  exact hb h3

theorem set_ne_self (l : List Nat) (i : Nat) (old b : Nat)
    (hold : l[i]? = some old) (hb : b ≠ old) : l.set i b ≠ l := by
  intro h
  have hi : i < l.length := by
    by_contra hlt
    rw [List.getElem?_eq_none (by omega)] at hold
    exact Option.noConfusion hold
  have h2 := congrArg (fun x => x[i]?) h
  simp only at h2
  rw [List.getElem?_set_self hi, hold] at h2
  simp only [Option.some.injEq] at h2
  exact hb h2

theorem decodePayload_encodePayload (id exp : Nat) :
    decodePayload (encodePayload id exp) = some (id, exp) := by
  simp [decodePayload, encodePayload, Nat.unpair_pair]

theorem generateToken_eq (id exp : Nat) :
    generateToken JWT_SECRET id exp =
      headerSeg ++ 46 :: (encodePayload id exp ++ 46 ::
        macTag JWT_SECRET (headerSeg ++ 46 :: encodePayload id exp)) := by
  simp [generateToken, List.append_assoc]

theorem splitDots_generateToken (id exp : Nat) :
    splitDots (generateToken JWT_SECRET id exp) =
      [headerSeg, encodePayload id exp,
       macTag JWT_SECRET (headerSeg ++ 46 :: encodePayload id exp)] := by
  rw [generateToken_eq,
    splitDots_append_sep _ headerSeg_no_dot,
    splitDots_append_sep _ (encodePayload_no_dot id exp),
    splitDots_no_dot (macTag_no_dot _ _ JWT_SECRET_no_dot)]

theorem authenticateToken_generateToken (users : List Nat)
    (id exp now : Nat) :
    authenticateToken users JWT_SECRET (generateToken JWT_SECRET id exp)
      now =
      if now < exp then (if id ∈ users then .ok id else .userNotFound)
      else .expiredToken := by
  simp only [authenticateToken, splitDots_generateToken]
  rw [if_pos trivial, decodePayload_encodePayload]

theorem authenticateToken_of_splitDots_three {users secret token : List Nat}
    {now : Nat} {h p s : List Nat} (hs : splitDots token = [h, p, s]) :
    authenticateToken users secret token now =
      if s = macTag secret (h ++ 46 :: p) then
        match decodePayload p with
        | none => .invalidToken
        | some (id, exp) =>
          if now < exp then (if id ∈ users then .ok id else .userNotFound)
          else .expiredToken
      else .invalidToken := by
  simp only [authenticateToken, hs]

theorem authenticateToken_not_three {users secret token : List Nat}
    {now : Nat} (hs : (splitDots token).length ≠ 3) :
    authenticateToken users secret token now = .malformedToken := by
  simp only [authenticateToken]
  rcases hsp : splitDots token with _ | ⟨a, _ | ⟨b, _ | ⟨c, _ | ⟨d, rest⟩⟩⟩⟩
  · rfl
  · rfl
  · rfl
  · rw [hsp] at hs
    simp at hs
  · rfl


theorem authenticateToken_mutated (users : List Nat) (A B : List Nat)
    (now : Nat) (hA : ∀ c ∈ A, c ≠ 46) (hB : ∀ c ∈ B, c ≠ 46)
    (i b : Nat)
    (hi : i < (A ++ 46 :: (B ++ 46 ::
      macTag JWT_SECRET (A ++ 46 :: B))).length)
    (hb : (A ++ 46 :: (B ++ 46 ::
      macTag JWT_SECRET (A ++ 46 :: B)))[i]? ≠ some b) :
    authenticateToken users JWT_SECRET
      ((A ++ 46 :: (B ++ 46 :: macTag JWT_SECRET (A ++ 46 :: B))).set i b)
      now =
      if (A ++ 46 :: (B ++ 46 :: macTag JWT_SECRET (A ++ 46 :: B)))[i]? =
          some 46 ∨ b = 46
      then .malformedToken else .invalidToken := by
  have hS : ∀ c ∈ macTag JWT_SECRET (A ++ 46 :: B), c ≠ 46 :=
    macTag_no_dot _ _ JWT_SECRET_no_dot
  by_cases h1 : i < A.length
  · -- zone 1: a byte of the header segment is mutated
    have hTi : (A ++ 46 :: (B ++ 46 :: macTag JWT_SECRET (A ++ 46 :: B)))[i]?
        = A[i]? := List.getElem?_append_left h1
    obtain ⟨a, ha⟩ : ∃ a, A[i]? = some a :=
      ⟨A.get ⟨i, h1⟩, List.getElem?_eq_getElem h1⟩
    have ha46 : a ≠ 46 := hA a (List.getElem?_mem ha)
    have hbn : b ≠ a := fun hcon => hb (by rw [hTi, ha, hcon])
    rw [List.set_append_left _ _ h1, hTi, ha]
    by_cases hb46 : b = 46
    · subst hb46
      rw [if_pos (Or.inr rfl), set_take_drop A i h1 46]
      have hsplit : splitDots ((A.take i ++ 46 :: A.drop (i + 1)) ++
          46 :: (B ++ 46 :: macTag JWT_SECRET (A ++ 46 :: B))) =
          [A.take i, A.drop (i + 1), B,
           macTag JWT_SECRET (A ++ 46 :: B)] := by
        rw [List.append_assoc, List.cons_append,
          splitDots_append_sep _ (fun c hc => hA c (List.mem_of_mem_take hc)),
          splitDots_append_sep _ (fun c hc => hA c (List.mem_of_mem_drop hc)),
          splitDots_append_sep _ hB, splitDots_no_dot hS]
      rw [authenticateToken_not_three (by rw [hsplit]; simp)]
    · rw [if_neg (by simp [ha46, hb46])]
      have hsplit : splitDots (A.set i b ++
          46 :: (B ++ 46 :: macTag JWT_SECRET (A ++ 46 :: B))) =
          [A.set i b, B, macTag JWT_SECRET (A ++ 46 :: B)] := by
        rw [splitDots_append_sep _ (fun c hc => by
            rcases List.mem_or_eq_of_mem_set hc with h | h
            · exact hA c h
            · exact h ▸ hb46),
          splitDots_append_sep _ hB, splitDots_no_dot hS]
      have hmac : ¬ (macTag JWT_SECRET (A ++ 46 :: B) =
          macTag JWT_SECRET (A.set i b ++ 46 :: B)) := by
        intro hcon
        have heq : A.set i b ++ 46 :: B = (A ++ 46 :: B).set i b :=
          (List.set_append_left i b h1).symm
        rw [heq] at hcon
        exact macTag_set_ne JWT_SECRET (A ++ 46 :: B) i a b
          (by rw [List.getElem?_append_left h1, ha]) hbn hb46 ha46 hcon.symm
      rw [authenticateToken_of_splitDots_three hsplit, if_neg hmac]
  · by_cases h2 : i = A.length
    · -- zone 2: the first dot separator is mutated
      subst h2
      have hTi : (A ++ 46 :: (B ++ 46 ::
          macTag JWT_SECRET (A ++ 46 :: B)))[A.length]? = some 46 := by
        rw [List.getElem?_append_right (le_refl _), Nat.sub_self,
          List.getElem?_cons_zero]
      have hb46 : b ≠ 46 := fun hcon => hb (by rw [hTi, hcon])
      rw [hTi, if_pos (Or.inl rfl),
        List.set_append_right _ _ (le_refl _), Nat.sub_self,
        List.set_cons_zero]
      have hre : A ++ b :: (B ++ 46 :: macTag JWT_SECRET (A ++ 46 :: B)) =
          (A ++ b :: B) ++ 46 :: macTag JWT_SECRET (A ++ 46 :: B) := by
        simp [List.append_assoc]
      have hsplit : splitDots (A ++ b :: (B ++ 46 ::
          macTag JWT_SECRET (A ++ 46 :: B))) =
          [A ++ b :: B, macTag JWT_SECRET (A ++ 46 :: B)] := by
        rw [hre, splitDots_append_sep _ (fun c hc => by
            rcases List.mem_append.mp hc with h | h
            · exact hA c h
            · rcases List.mem_cons.mp h with rfl | h
              · exact hb46
              · exact hB c h),
          splitDots_no_dot hS]
      rw [authenticateToken_not_three (by rw [hsplit]; simp)]
    · by_cases h3 : i < A.length + 1 + B.length
      · -- zone 3: a byte of the payload segment is mutated
        obtain ⟨j, rfl⟩ : ∃ j, i = A.length + 1 + j :=
          ⟨i - A.length - 1, by omega⟩
        have hj : j < B.length := by omega
        have hTi : (A ++ 46 :: (B ++ 46 ::
            macTag JWT_SECRET (A ++ 46 :: B)))[A.length + 1 + j]? =
            B[j]? := by
          rw [List.getElem?_append_right (by omega),
            show A.length + 1 + j - A.length = j + 1 from by omega,
            List.getElem?_cons_succ, List.getElem?_append_left hj]
        obtain ⟨a, ha⟩ : ∃ a, B[j]? = some a :=
          ⟨B.get ⟨j, hj⟩, List.getElem?_eq_getElem hj⟩
        have ha46 : a ≠ 46 := hB a (List.getElem?_mem ha)
        have hbn : b ≠ a := fun hcon => hb (by rw [hTi, ha, hcon])
        have hset : (A ++ 46 :: (B ++ 46 ::
            macTag JWT_SECRET (A ++ 46 :: B))).set (A.length + 1 + j) b =
            A ++ 46 :: (B.set j b ++ 46 ::
              macTag JWT_SECRET (A ++ 46 :: B)) := by
          rw [List.set_append_right _ _ (by omega),
            show A.length + 1 + j - A.length = j + 1 from by omega,
            List.set_cons_succ, List.set_append_left _ _ hj]
        rw [hset, hTi, ha]
        by_cases hb46 : b = 46
        · subst hb46
          rw [if_pos (Or.inr rfl), set_take_drop B j hj 46]
          have hsplit : splitDots (A ++ 46 ::
              ((B.take j ++ 46 :: B.drop (j + 1)) ++ 46 ::
                macTag JWT_SECRET (A ++ 46 :: B))) =
              [A, B.take j, B.drop (j + 1),
               macTag JWT_SECRET (A ++ 46 :: B)] := by
            rw [splitDots_append_sep _ hA, List.append_assoc,
              List.cons_append,
              splitDots_append_sep _
                (fun c hc => hB c (List.mem_of_mem_take hc)),
              splitDots_append_sep _
                (fun c hc => hB c (List.mem_of_mem_drop hc)),
              splitDots_no_dot hS]
          rw [authenticateToken_not_three (by rw [hsplit]; simp)]
        · rw [if_neg (by simp [ha46, hb46])]
          have hsplit : splitDots (A ++ 46 :: (B.set j b ++ 46 ::
              macTag JWT_SECRET (A ++ 46 :: B))) =
              [A, B.set j b, macTag JWT_SECRET (A ++ 46 :: B)] := by
            rw [splitDots_append_sep _ hA,
              splitDots_append_sep _ (fun c hc => by
                rcases List.mem_or_eq_of_mem_set hc with h | h
                · exact hB c h
                · exact h ▸ hb46),
              splitDots_no_dot hS]
          have hmac : ¬ (macTag JWT_SECRET (A ++ 46 :: B) =
              macTag JWT_SECRET (A ++ 46 :: B.set j b)) := by
            intro hcon
            have heq : A ++ 46 :: B.set j b =
                (A ++ 46 :: B).set (A.length + 1 + j) b := by
              rw [List.set_append_right _ _ (by omega),
                show A.length + 1 + j - A.length = j + 1 from by omega,
                List.set_cons_succ]
            rw [heq] at hcon
            exact macTag_set_ne JWT_SECRET (A ++ 46 :: B)
              (A.length + 1 + j) a b
              (by rw [List.getElem?_append_right (by omega),
                show A.length + 1 + j - A.length = j + 1 from by omega,
                List.getElem?_cons_succ, ha])
              hbn hb46 ha46 hcon.symm
          rw [authenticateToken_of_splitDots_three hsplit, if_neg hmac]
      · by_cases h4 : i = A.length + 1 + B.length
        · -- zone 4: the second dot separator is mutated
          subst h4
          have hTi : (A ++ 46 :: (B ++ 46 ::
              macTag JWT_SECRET (A ++ 46 ::
                B)))[A.length + 1 + B.length]? = some 46 := by
            rw [List.getElem?_append_right (by omega),
              show A.length + 1 + B.length - A.length = B.length + 1 from
                by omega,
              List.getElem?_cons_succ,
              List.getElem?_append_right (le_refl _), Nat.sub_self,
              List.getElem?_cons_zero]
          have hb46 : b ≠ 46 := fun hcon => hb (by rw [hTi, hcon])
          have hset : (A ++ 46 :: (B ++ 46 ::
              macTag JWT_SECRET (A ++ 46 :: B))).set
                (A.length + 1 + B.length) b =
              A ++ 46 :: (B ++ b :: macTag JWT_SECRET (A ++ 46 :: B)) := by
            rw [List.set_append_right _ _ (by omega),
              show A.length + 1 + B.length - A.length = B.length + 1 from
                by omega,
              List.set_cons_succ,
              List.set_append_right _ _ (le_refl _), Nat.sub_self,
              List.set_cons_zero]
          rw [hTi, if_pos (Or.inl rfl), hset]
          have hsplit : splitDots (A ++ 46 :: (B ++ b ::
              macTag JWT_SECRET (A ++ 46 :: B))) =
              [A, B ++ b :: macTag JWT_SECRET (A ++ 46 :: B)] := by
            rw [splitDots_append_sep _ hA,
              splitDots_no_dot (fun c hc => by
                rcases List.mem_append.mp hc with h | h
                · exact hB c h
                · rcases List.mem_cons.mp h with rfl | h
                  · exact hb46
                  · exact hS c h)]
          rw [authenticateToken_not_three (by rw [hsplit]; simp)]
        · -- zone 5: a byte of the signature segment is mutated
          have hlen : i < A.length + 1 + B.length + 1 +
              (macTag JWT_SECRET (A ++ 46 :: B)).length := by
            have := hi
            simp only [List.length_append, List.length_cons] at this
            omega
          obtain ⟨j, rfl⟩ : ∃ j, i = A.length + 1 + B.length + 1 + j :=
            ⟨i - A.length - 1 - B.length - 1, by omega⟩
          have hj : j < (macTag JWT_SECRET (A ++ 46 :: B)).length := by
            omega
          have hTi : (A ++ 46 :: (B ++ 46 ::
              macTag JWT_SECRET (A ++ 46 ::
                B)))[A.length + 1 + B.length + 1 + j]? =
              (macTag JWT_SECRET (A ++ 46 :: B))[j]? := by
            rw [List.getElem?_append_right (by omega),
              show A.length + 1 + B.length + 1 + j - A.length =
                B.length + 1 + j + 1 from by omega,
              List.getElem?_cons_succ,
              List.getElem?_append_right (by omega),
              show B.length + 1 + j - B.length = j + 1 from by omega,
              List.getElem?_cons_succ]
          obtain ⟨a, ha⟩ : ∃ a, (macTag JWT_SECRET (A ++ 46 :: B))[j]? =
              some a :=
            ⟨(macTag JWT_SECRET (A ++ 46 :: B)).get ⟨j, hj⟩,
             List.getElem?_eq_getElem hj⟩
          have ha46 : a ≠ 46 := hS a (List.getElem?_mem ha)
          have hbn : b ≠ a := fun hcon => hb (by rw [hTi, ha, hcon])
          have hset : (A ++ 46 :: (B ++ 46 ::
              macTag JWT_SECRET (A ++ 46 :: B))).set
                (A.length + 1 + B.length + 1 + j) b =
              A ++ 46 :: (B ++ 46 ::
                (macTag JWT_SECRET (A ++ 46 :: B)).set j b) := by
            rw [List.set_append_right _ _ (by omega),
              show A.length + 1 + B.length + 1 + j - A.length =
                B.length + 1 + j + 1 from by omega,
              List.set_cons_succ,
              List.set_append_right _ _ (by omega),
              show B.length + 1 + j - B.length = j + 1 from by omega,
              List.set_cons_succ]
          rw [hset, hTi, ha]
          by_cases hb46 : b = 46
          · subst hb46
            rw [if_pos (Or.inr rfl),
              set_take_drop (macTag JWT_SECRET (A ++ 46 :: B)) j hj 46]
            have hsplit : splitDots (A ++ 46 :: (B ++ 46 ::
                ((macTag JWT_SECRET (A ++ 46 :: B)).take j ++ 46 ::
                  (macTag JWT_SECRET (A ++ 46 :: B)).drop (j + 1)))) =
                [A, B, (macTag JWT_SECRET (A ++ 46 :: B)).take j,
                 (macTag JWT_SECRET (A ++ 46 :: B)).drop (j + 1)] := by
              rw [splitDots_append_sep _ hA, splitDots_append_sep _ hB,
                splitDots_append_sep _
                  (fun c hc => hS c (List.mem_of_mem_take hc)),
                splitDots_no_dot
                  (fun c hc => hS c (List.mem_of_mem_drop hc))]
            rw [authenticateToken_not_three (by rw [hsplit]; simp)]
          · rw [if_neg (by simp [ha46, hb46])]
            have hsplit : splitDots (A ++ 46 :: (B ++ 46 ::
                (macTag JWT_SECRET (A ++ 46 :: B)).set j b)) =
                [A, B, (macTag JWT_SECRET (A ++ 46 :: B)).set j b] := by
              rw [splitDots_append_sep _ hA, splitDots_append_sep _ hB,
                splitDots_no_dot (fun c hc => by
                  rcases List.mem_or_eq_of_mem_set hc with h | h
                  · exact hS c h
                  · exact h ▸ hb46)]
            have hmac : ¬ ((macTag JWT_SECRET (A ++ 46 :: B)).set j b =
                macTag JWT_SECRET (A ++ 46 :: B)) :=
              set_ne_self _ j a b ha hbn
            rw [authenticateToken_of_splitDots_three hsplit, if_neg hmac]


end Lemmas

section Claims

/-- C4 (counterexample): on a log of two appends that share a server
timestamp, `getRecentMessages` returns the two entries in the reverse of
their append order — the returned list is not even a sublist of the log,
so relative append order is not preserved when timestamps tie. -/
theorem getRecentMessages_reverses_tied_appends :
    tieChat.messages = [msgA, msgB] ∧
    msgA.timestamp = msgB.timestamp ∧
    getRecentMessages tieChat 2 = [msgB, msgA] ∧
    ¬ (getRecentMessages tieChat 2).Sublist tieChat.messages := by
  decide

/-- C4 (amended): when the log's server-assigned timestamps are strictly
increasing, `getRecentMessages` returns exactly the most recent `limit`
entries of the log in append (chronological) order; only appends whose
timestamps tie are returned in reversed relative order. -/
theorem getRecentMessages_strict_timestamps_append_order (c : Chat)
    (limit : Nat)
    (h : c.messages.Pairwise fun a b => a.timestamp < b.timestamp) :
    getRecentMessages c limit = c.messages.drop (c.messages.length - limit) := by
  rw [getRecentMessages, sortByDesc_eq_reverse h, reverse_take_reverse]

/-- C4 witness: the amended statement evaluated on a concrete
three-message log with strictly increasing timestamps. -/
theorem getRecentMessages_strict_timestamps_append_order_witness :
    getRecentMessages strictChat 2 =
      [⟨str "y", .ai, 2, 2⟩, ⟨str "z", .user, 3, 3⟩] := by
  have h := getRecentMessages_strict_timestamps_append_order strictChat 2
    (by decide)
  simpa [strictChat] using h

/-- C7: the concrete 25-conversation pagination scenario (page 2 of size
10 returns the conversations ranked 11–20 most-recent-first with
`totalPages = 3`, `hasNextPage`, `hasPrevPage`); a requested page size
above 100 is rejected; and every conversation any history response
returns belongs to the requesting owner and is active. -/
theorem getChatHistory_pagination_and_filter :
    (getChatHistory histStore 1 2 10 =
      .ok ((histStore.drop 10).take 10) 2 3 25 true true 10) ∧
    (∀ store uid page limit, 100 < limit →
      getChatHistory store uid page limit =
        .badRequest (str "Limit cannot exceed 100")) ∧
    (∀ store uid page limit,
      ∀ c ∈ historyChats (getChatHistory store uid page limit),
        c.userId = uid ∧ c.isActive = true) := by
  refine ⟨by decide, ?_, ?_⟩
  · intro store uid page limit h
    simp [getChatHistory, h]
  · intro store uid page limit c hc
    exact (mem_of_mem_historyChats hc).2

/-- C7 witness: the rejection branch evaluated at a concrete request
with page size 101. -/
theorem getChatHistory_pagination_and_filter_witness :
    getChatHistory [histChat 0] 1 1 101 =
      .badRequest (str "Limit cannot exceed 100") :=
  getChatHistory_pagination_and_filter.2.1 [histChat 0] 1 1 101 (by decide)

/-- C1: evaluating `sendMessage` at a request whose `chatId` `"12345"` is
not a 24-hex-digit ObjectId.  The source's own comment and log line say a
new chat is created in this branch, but the branch reads `user._id` with
`user` undefined, so the request fails with the catch-all 500 and no
conversation is created (the store is unchanged). -/
theorem sendMessage_malformed_chatId_answers_500 :
    isValidObjectId (str "12345") = false ∧
    sendMessage [] 1 (str "Hello") (some (str "12345"))
      ⟨true, str "Hi!", []⟩ 10 11 (List.replicate 24 98) 1 2 =
      (.internalError, []) := by
  decide

/-- C2: evaluating `sendMessage` at a valid-content request with a
malformed `chatId` while the gateway would report failure with its
fallback string: the request answers 500 and the store keeps its single
one-message conversation — no user message and no assistant message are
appended anywhere, against the claimed one-user/one-assistant pair. -/
theorem sendMessage_malformed_chatId_appends_nothing :
    (trimJs (str "Hi there")).isEmpty = false ∧
    sendMessage [activeChat] 1 (str "Hi there")
      (some (str "not-a-valid-objectid"))
      ⟨false,
       str "AI service is temporarily unavailable. Please try again later.",
       str "Network error"⟩ 10 11 (List.replicate 24 99) 3 4 =
      (.internalError, [activeChat]) ∧
    activeChat.messages.length = 1 := by
  decide

/-- C3 (counterexample): after soft-deleting its only conversation, the
owner's `getChat` fetch does not answer NotFound — it returns the
conversation, now flagged inactive. -/
theorem getChat_succeeds_after_softDelete :
    deleteChat [activeChat] 1 (List.replicate 24 97) =
      (.ok (List.replicate 24 97), [deletedChat]) ∧
    getChat [deletedChat] 1 (List.replicate 24 97) 50 ≠ .notFound ∧
    getChat [deletedChat] 1 (List.replicate 24 97) 50 =
      .ok (List.replicate 24 97) (str "hello") 5 1 false [msgA] := by
  decide

/-- C3 (amended): after a successful soft delete the conversation no
longer appears in the owner's history listing (ids being unique in the
store, as Mongo guarantees for `_id`), but a `getChat` fetch by the same
owner still succeeds and returns the conversation with
`isActive = false`. -/
theorem softDelete_hides_from_history_not_from_getChat
    (store store' : List Chat) (uid : Nat) (cid rid : List Nat)
    (hnd : (store.map Chat.id).Nodup)
    (hdel : deleteChat store uid cid = (.ok rid, store')) :
    (∀ page limit d, d ∈ historyChats (getChatHistory store' uid page limit) →
      d.id ≠ cid) ∧
    (∃ c0 : Chat, getChat store' uid cid 50 =
      .ok cid c0.title c0.lastMessageAt c0.messages.length false
        (getRecentMessages { c0 with isActive := false } 50)) := by
  have hvalid : isValidObjectId cid = true := by
    by_contra hv
    simp only [Bool.not_eq_true] at hv
    simp [deleteChat, hv] at hdel
  simp only [deleteChat, hvalid, Bool.not_true, Bool.false_eq_true,
    if_false] at hdel
  cases hu : updateFirst (fun c => c.id == cid && c.userId == uid)
      (fun c => { c with isActive := false }) store with
  | mk r st =>
    rw [hu] at hdel
    cases r with
    | none => simp at hdel
    | some c =>
      simp only [Prod.mk.injEq, DeleteResult.ok.injEq] at hdel
      obtain ⟨hrid, rfl⟩ := hdel
      obtain ⟨pre, c0, suf, hsplit, hsplit', hc, hp, hpre⟩ :=
        updateFirst_eq_some hu
      simp only [Bool.and_eq_true, beq_iff_eq] at hp
      constructor
      · intro page limit d hd hdid
        obtain ⟨hdmem, hduid, hdact⟩ := mem_of_mem_historyChats hd
        rw [hsplit'] at hdmem
        rw [hsplit] at hnd
        simp only [List.map_append, List.map_cons] at hnd
        have hnd2 := List.nodup_append.mp hnd
        rcases List.mem_append.mp hdmem with hmem | hmem
        · have : d.id ∈ pre.map Chat.id := List.mem_map_of_mem Chat.id hmem
          have hne := hnd2.2.2 this
          simp only [List.mem_cons] at hne
          exact hne (Or.inl (by rw [hdid, hp.1]))
        · rcases List.mem_cons.mp hmem with rfl | hmem'
          · simp at hdact
          · have hndmid := List.nodup_cons.mp hnd2.2.1
            have : d.id ∈ suf.map Chat.id := List.mem_map_of_mem Chat.id hmem'
            exact hndmid.1 (by rwa [hdid, ← hp.1] at this)
      · refine ⟨c0, ?_⟩
        simp only [getChat, hvalid, Bool.not_true, Bool.false_eq_true,
          if_false]
        rw [hsplit']
        rw [List.find?_append]
        have hprenone : pre.find? (fun c => c.id == cid && c.userId == uid) =
            none := List.find?_eq_none.mpr (fun d hd => by
          simp [hpre d hd])
        rw [hprenone]
        simp only [Option.none_or]
        rw [List.find?_cons_of_pos _ (by simp [hp.1, hp.2])]
        simp [hp.1]

/-- C3 witness: the amended statement applied to the one-conversation
store, with the nodup and successful-delete hypotheses discharged by
evaluation. -/
theorem softDelete_hides_from_history_not_from_getChat_witness :
    ∃ c0 : Chat, getChat [deletedChat] 1 (List.replicate 24 97) 50 =
      .ok (List.replicate 24 97) c0.title c0.lastMessageAt
        c0.messages.length false
        (getRecentMessages { c0 with isActive := false } 50) :=
  (softDelete_hides_from_history_not_from_getChat [activeChat] [deletedChat]
    1 (List.replicate 24 97) (List.replicate 24 97) (by decide)
    (by decide)).2

/-- C10: the `createNewChat` handler performs no title validation of its
own — a title whose stored (trimmed) form exceeds 100 characters is
rejected only by the schema at save time and surfaces as the catch-all
500 (the handler has no 400 branch at all, as the response type
records), while a request without a title succeeds with the default
title "New Chat" and zero messages. -/
theorem createNewChat_no_handler_validation :
    (∀ store uid t newId now, 100 < (trimJs t).length →
      createNewChat store uid (some t) newId now = (.internalError, store)) ∧
    (∀ store uid newId now, createNewChat store uid none newId now =
      (.created newId (str "New Chat") 0 true,
       saveChat ⟨newId, uid, str "New Chat", [], true, now⟩ store)) := by
  constructor
  · intro store uid t newId now h
    have ht : t.isEmpty = false := by
      cases t
      · simp [trimJs] at h
      · rfl
    have hv : chatValid ⟨newId, uid, trimJs t, [], true, now⟩ = false := by
      simp only [chatValid, List.all_nil, Bool.and_true]
      simp only [Bool.and_eq_false_iff, decide_eq_false_iff_not]
      right
      omega
    simp [createNewChat, ht, hv]
  · intro store uid newId now
    rfl

set_option maxRecDepth 10000 in
/-- C5 (counterexample): mutating one byte of an issued token does not
always fail with the invalid-token error — mutating the first dot
separator (index 3, code 46) into `x` (120) leaves fewer than three
dot-delimited segments, so verification fails with the malformed-token
error instead. -/
theorem authenticateToken_dot_mutation_malformed :
    (generateToken JWT_SECRET 7 5)[3]? = some 46 ∧ (120 : Nat) ≠ 46 ∧
    authenticateToken [7] JWT_SECRET
      ((generateToken JWT_SECRET 7 5).set 3 120) 4 = .malformedToken ∧
    AuthResult.malformedToken ≠ AuthResult.invalidToken := by
  decide

/-- C5 (amended): verifying an issued token before its expiry yields the
identity's id; at or after expiry it fails with the expired-token error;
mutating one byte fails with the malformed-token error when the byte
written or overwritten is a dot separator, and with the invalid-token
error in every other position; the three failures carry pairwise
distinct response messages. -/
theorem token_roundtrip_expiry_and_mutation (users : List Nat)
    (id exp now : Nat) (hmem : id ∈ users) :
    (now < exp →
      authenticateToken users JWT_SECRET (generateToken JWT_SECRET id exp)
        now = .ok id) ∧
    (exp ≤ now →
      authenticateToken users JWT_SECRET (generateToken JWT_SECRET id exp)
        now = .expiredToken) ∧
    (∀ i b, i < (generateToken JWT_SECRET id exp).length →
      (generateToken JWT_SECRET id exp)[i]? ≠ some b →
      authenticateToken users JWT_SECRET
        ((generateToken JWT_SECRET id exp).set i b) now =
        if (generateToken JWT_SECRET id exp)[i]? = some 46 ∨ b = 46
        then .malformedToken else .invalidToken) ∧
    (authMessage .malformedToken ≠ authMessage .invalidToken ∧
     authMessage .invalidToken ≠ authMessage .expiredToken ∧
     authMessage .expiredToken ≠ authMessage .malformedToken) := by
  refine ⟨?_, ?_, ?_, by decide⟩
  · intro h
    rw [authenticateToken_generateToken, if_pos h, if_pos hmem]
  · intro h
    rw [authenticateToken_generateToken, if_neg (by omega)]
  · intro i b hi hb
    rw [generateToken_eq] at hi hb ⊢
    exact authenticateToken_mutated users headerSeg (encodePayload id exp)
      now headerSeg_no_dot (encodePayload_no_dot id exp) i b hi hb

set_option maxRecDepth 10000 in
/-- C5 witness: the round-trip, expiry, and one concrete mutation
applied to a token for identity 7 expiring at time 5. -/
theorem token_roundtrip_expiry_and_mutation_witness :
    authenticateToken [7] JWT_SECRET (generateToken JWT_SECRET 7 5) 4 =
      .ok 7 ∧
    authenticateToken [7] JWT_SECRET (generateToken JWT_SECRET 7 5) 5 =
      .expiredToken ∧
    authenticateToken [7] JWT_SECRET
      ((generateToken JWT_SECRET 7 5).set 10 98) 4 =
      (if (generateToken JWT_SECRET 7 5)[10]? = some 46 ∨ (98 : Nat) = 46
       then .malformedToken else .invalidToken) :=
  ⟨(token_roundtrip_expiry_and_mutation [7] 7 5 4 (by decide)).1 (by decide),
   (token_roundtrip_expiry_and_mutation [7] 7 5 5 (by decide)).2.1
     (by decide),
   (token_roundtrip_expiry_and_mutation [7] 7 5 4 (by decide)).2.2.1 10 98
     (by decide) (by decide)⟩

/-- C6 (counterexample): a message of 5000 `a`s followed by one space is
within bounds after trimming (trimmed length exactly 5000, non-empty),
yet `sendMessage` rejects it, because the length guard tests the raw
(untrimmed) length 5001. -/
theorem sendMessage_rejects_within_bounds_after_trim :
    (trimJs (List.replicate 5000 97 ++ [32])).length = 5000 ∧
    (trimJs (List.replicate 5000 97 ++ [32])).isEmpty = false ∧
    (sendMessage [] 1 (List.replicate 5000 97 ++ [32]) none
      ⟨true, str "Hi!", []⟩ 1 2 (List.replicate 24 97) 1 2).1 =
      .badRequest (str "Message cannot exceed 5000 characters") := by
  have h : trimJs (List.replicate 5000 97 ++ [32]) = List.replicate 5000 97 :=
    trimJs_pad 4999
  have hne : (List.replicate 5000 97).isEmpty = false := by
    rw [List.replicate_succ]
    rfl
  refine ⟨by rw [h, List.length_replicate], by rw [h]; exact hne, ?_⟩
  have hlen : 5000 < (List.replicate 5000 97 ++ [32]).length := by
    rw [List.length_append, List.length_replicate, List.length_singleton]
    omega
  simp only [sendMessage, h, hne, Bool.false_eq_true, if_false]
  rw [if_pos hlen]

/-- C6 (amended): a send-message request is rejected with a validation
error exactly when the content is empty after trimming or its raw
(untrimmed) length exceeds 5000 characters; accepted content on the
new-conversation path is stored exactly as its trimmed form — trimmed,
never truncated. -/
theorem sendMessage_validation_boundary (store : List Chat) (uid : Nat)
    (message : List Nat) (chatId : Option (List Nat)) (ai : AiResponse)
    (now tAi : Nat) (newId : List Nat) (mid1 mid2 : Nat) :
    ((∃ msg, (sendMessage store uid message chatId ai now tAi newId mid1
        mid2).1 = .badRequest msg) ↔
      (trimJs message).isEmpty = true ∨ 5000 < message.length) ∧
    ((trimJs message).isEmpty = false → message.length ≤ 5000 →
      ∃ c : Chat,
        sendMessage store uid message none ai now tAi newId mid1 mid2 =
          sendMessageRespond (saveChat c store) c ai tAi mid2 ∧
        c.messages.map Message.content = [trimJs message]) := by
  constructor
  · by_cases hA : (trimJs message).isEmpty = true
    · simp only [hA, true_or, iff_true]
      exact ⟨str "Message content is required", by simp [sendMessage, hA]⟩
    · have hA' : (trimJs message).isEmpty = false := by simpa using hA
      by_cases hB : 5000 < message.length
      · simp only [hB, or_true, iff_true]
        exact ⟨str "Message cannot exceed 5000 characters",
          by simp [sendMessage, hA', hB]⟩
      · have hnb : ∀ msg, (sendMessage store uid message chatId ai now tAi
            newId mid1 mid2).1 ≠ .badRequest msg := by
          intro msg
          simp only [sendMessage, hA', Bool.false_eq_true, if_false,
            if_neg hB]
          cases chatId with
          | none => exact sendMessageRespond_not_badRequest _ _ _ _ _ _
          | some cid =>
            by_cases hcid : cid.isEmpty = true
            · simp only [hcid, if_true]
              exact sendMessageRespond_not_badRequest _ _ _ _ _ _
            · simp only [(by simpa using hcid : cid.isEmpty = false),
                Bool.false_eq_true, if_false]
              by_cases hv : isValidObjectId cid = true
              · simp only [hv, Bool.not_true, Bool.false_eq_true, if_false]
                cases hfind : store.find?
                    (fun c => c.id == cid && c.userId == uid) with
                | none => simp
                | some chat =>
                  by_cases hcv : chatValid
                      (addMessage chat (trimJs message) .user now mid1) = true
                  · simp only [hcv, if_true]
                    exact sendMessageRespond_not_badRequest _ _ _ _ _ _
                  · simp only [(by simpa using hcv :
                      chatValid (addMessage chat (trimJs message) .user now
                        mid1) = false), Bool.false_eq_true, if_false]
                    simp
              · simp [(by simpa using hv : isValidObjectId cid = false)]
        constructor
        · rintro ⟨msg, hmsg⟩
          exact absurd hmsg (hnb msg)
        · rintro (h | h)
          · rw [hA'] at h
            exact absurd h (by simp)
          · exact absurd h hB
  · intro h1 h2
    refine ⟨createNew uid (trimJs message) .user newId now mid1, ?_, ?_⟩
    · simp only [sendMessage, h1, Bool.false_eq_true, if_false,
        if_neg (by omega : ¬ 5000 < message.length)]
    · simp [createNew, addMessage, trimJs_idem]

/-- C6 witness: the acceptance conclusion applied to the message
`" hi "`, whose stored content is its trimmed form `"hi"`. -/
theorem sendMessage_validation_boundary_witness :
    ∃ c : Chat,
      sendMessage [] 1 (str " hi ") none ⟨true, str "ok", []⟩ 1 2
        (List.replicate 24 97) 1 2 =
        sendMessageRespond (saveChat c []) c ⟨true, str "ok", []⟩ 2 2 ∧
      c.messages.map Message.content = [trimJs (str " hi ")] :=
  (sendMessage_validation_boundary [] 1 (str " hi ") none
    ⟨true, str "ok", []⟩ 1 2 (List.replicate 24 97) 1 2).2
    (by decide) (by decide)

/-- C8: a successful signup stores a credential that is never the
plaintext password; logging in with the original password yields the new
identity, and logging in with any altered password fails. -/
theorem signup_hashes_password_login_roundtrip
    (store : List User) (name email pw : List Nat) (newId : Nat)
    (u : User) (store' : List User)
    (hsu : signup store name email pw newId = (.created u, store')) :
    u.password ≠ pw ∧
    login store' email pw = .ok u.id ∧
    (∀ pw', pw' ≠ pw → ∀ uid, login store' email pw' ≠ .ok uid) := by
  obtain ⟨hval, hlen, hfind, hu, hst⟩ := signup_created_inv hsu
  subst hu
  subst hst
  have hemail : trimJs (lowerStr email) = lowerStr email :=
    trimJs_lowerStr_of_valid hval
  have hpwne : pw.isEmpty = false := by
    cases pw
    · simp at hlen
    · rfl
  have hfind' : findByEmail
      (store ++ [⟨newId, trimJs name, trimJs (lowerStr email), bcryptHash pw⟩])
      email =
      some ⟨newId, trimJs name, trimJs (lowerStr email), bcryptHash pw⟩ := by
    simp only [findByEmail] at hfind ⊢
    rw [List.find?_append, hfind]
    simp [hemail]
  refine ⟨?_, ?_, ?_⟩
  · exact fun hcontra => bcryptHash_ne_self pw (by simpa using hcontra)
  · have hcmp : comparePassword
        ⟨newId, trimJs name, trimJs (lowerStr email), bcryptHash pw⟩ pw =
        true := by
      simp [comparePassword, bcryptCompare]
    simp [login, emailValid_ne_nil hval, hpwne, hfind', hcmp]
  · intro pw' hne uid hcontra
    by_cases hp' : pw'.isEmpty = true
    · simp [login, hp'] at hcontra
    · have hcmp : comparePassword
          ⟨newId, trimJs name, trimJs (lowerStr email), bcryptHash pw⟩ pw' =
          false := by
        simp only [comparePassword, bcryptCompare, beq_eq_false_iff_ne,
          ne_eq]
        intro hEq
        exact hne (bcryptHash_injective hEq).symm
      have hp'' : pw' ≠ [] := by simpa using hp'
      simp [login, emailValid_ne_nil hval, hp'', hfind', hcmp] at hcontra

/-- C8 witness: the first two conclusions applied to a concrete signup
of ("Ada", "ada@x.com", "secret1"). -/
theorem signup_hashes_password_login_roundtrip_witness :
    uAda.password ≠ str "secret1" ∧
    login [uAda] (str "ada@x.com") (str "secret1") = .ok 1 :=
  ⟨(signup_hashes_password_login_roundtrip [] (str "Ada") (str "ada@x.com")
      (str "secret1") 1 uAda [uAda] (by decide)).1,
   (signup_hashes_password_login_roundtrip [] (str "Ada") (str "ada@x.com")
      (str "secret1") 1 uAda [uAda] (by decide)).2.1⟩

/-- C9: after a successful signup, a second otherwise-valid registration
whose email differs only in letter case answers 409 duplicate and leaves
the store unchanged; the stored email is a fixed point of lower-casing
and of trimming. -/
theorem signup_duplicate_email_case_insensitive
    (store : List User) (n1 e1 p1 : List Nat) (id1 : Nat) (u : User)
    (store' : List User) (n2 e2 p2 : List Nat) (id2 : Nat)
    (hsu : signup store n1 e1 p1 id1 = (.created u, store'))
    (hcase : lowerStr e2 = lowerStr e1)
    (hn2 : n2.isEmpty = false) (he2 : emailValid e2 = true)
    (hp2 : 6 ≤ p2.length) :
    signup store' n2 e2 p2 id2 =
      (.conflict (str "User with this email already exists"), store') ∧
    lowerStr u.email = u.email ∧ trimJs u.email = u.email := by
  obtain ⟨hval, hlen, hfind, hu, hst⟩ := signup_created_inv hsu
  subst hu
  subst hst
  have hemail : trimJs (lowerStr e1) = lowerStr e1 :=
    trimJs_lowerStr_of_valid hval
  have hfind2 : findByEmail
      (store ++ [⟨id1, trimJs n1, trimJs (lowerStr e1), bcryptHash p1⟩])
      e2 = some ⟨id1, trimJs n1, trimJs (lowerStr e1), bcryptHash p1⟩ := by
    simp only [findByEmail, hcase] at hfind ⊢
    rw [List.find?_append, hfind]
    simp [hemail]
  refine ⟨?_, ?_, ?_⟩
  · have he2n : e2.isEmpty = false := emailValid_ne_nil he2
    have hp2n : p2.isEmpty = false := by
      cases p2
      · simp at hp2
      · rfl
    have hp2lt : ¬ p2.length < 6 := by omega
    simp [signup, hn2, he2n, hp2n, he2, hp2lt, hfind2]
  · show lowerStr (trimJs (lowerStr e1)) = trimJs (lowerStr e1)
    rw [hemail]
    exact lowerStr_idem e1
  · exact trimJs_idem _

/-- C9 witness: a concrete duplicate registration differing only in the
email's letter case. -/
theorem signup_duplicate_email_case_insensitive_witness :
    signup [uAda] (str "Bob") (str "ADA@X.com") (str "hunter22") 2 =
      (.conflict (str "User with this email already exists"), [uAda]) :=
  (signup_duplicate_email_case_insensitive [] (str "Ada") (str "ada@x.com")
    (str "secret1") 1 uAda [uAda] (str "Bob") (str "ADA@X.com")
    (str "hunter22") 2 (by decide) (by decide) (by decide) (by decide)
    (by decide)).1

/-- C10 witness: the schema-rejection conclusion applied to a
101-character title. -/
theorem createNewChat_no_handler_validation_witness :
    createNewChat [] 1 (some (List.replicate 101 97))
      (List.replicate 24 97) 0 = (.internalError, []) :=
  createNewChat_no_handler_validation.1 [] 1 (List.replicate 101 97)
    (List.replicate 24 97) 0 (by decide)

end Claims

end ChatApp
